import Mathlib

/-!
Verification of the schema-identity extraction and in-memory schema
registry of `bundle-schema` (`src/util/bundler.rs`), against its
natural-language specification.

The Rust code is shallowly embedded: `serde_json::Value` becomes the
inductive `JsonValue`; the external `url` crate's `Url::parse` is
modelled (its source is not part of this repository) following the
spec's description of standard URL syntax; `HashMap<String, _>` becomes
an association list with replace-on-insert, which agrees with a hash
map on lookup, cardinality and key multiplicity.
-/

set_option autoImplicit false

/-- Shallow embedding of `serde_json::Value`. Numbers are embedded as
integers; the claims only need that a number is not a string. -/
inductive JsonValue where
  | null
  | bool (b : Bool)
  | num (n : Int)
  | str (s : String)
  | arr (elems : List JsonValue)
  | obj (fields : List (String × JsonValue))

/-- Embedding of `serde_json::Value::get(key)`: field lookup on a JSON
object; `None` on any non-object value. -/
def JsonValue.get (val : JsonValue) (key : String) : Option JsonValue :=
  match val with
  | .obj fields => lookupField key fields
  | _ => none
where
  lookupField (key : String) : List (String × JsonValue) → Option JsonValue
    | [] => none
    | (k, v) :: rest => if k = key then some v else lookupField key rest

/-- Embedding of `serde_json::Value::as_str()`. -/
def JsonValue.as_str : JsonValue → Option String
  | .str s => some s
  | _ => none

/-- Whether a JSON value is an object. -/
def JsonValue.isObject : JsonValue → Bool
  | .obj _ => true
  | _ => false

/-! ## Model of the external `url` crate's parser -/

/-- Splits a character list at the first character satisfying `p`:
returns the longest p-free head and the remainder (which, if nonempty,
starts with a character satisfying `p`). -/
def takeUntil (p : Char → Bool) : List Char → List Char × List Char
  | [] => ([], [])
  | c :: cs =>
    if p c then ([], c :: cs)
    else
      let r := takeUntil p cs
      (c :: r.1, r.2)

/-- A URL scheme is nonempty, starts with a letter, and consists of
letters, digits, `+`, `-`, `.`. -/
def schemeOk : List Char → Bool
  | [] => false
  | c :: cs => c.isAlpha && (c :: cs).all fun d => d.isAlphanum || d == '+' || d == '-' || d == '.'

def isAuthorityEnd (c : Char) : Bool := c == '/' || c == '?' || c == '#'

def isPathEnd (c : Char) : Bool := c == '?' || c == '#'

/-- Modelled from the spec: the parsed-URL value produced by the
external `url` crate (`url::Url`), reduced to the components the spec
names: scheme, authority (host), path, optional query and fragment. -/
structure Url where
  scheme : String
  host : String
  path : String
  query : Option String
  fragment : Option String
deriving DecidableEq

/-- Splits `scheme ':' rest`; fails unless a valid scheme followed by a
colon is present. -/
def splitScheme (cs : List Char) : Option (List Char × List Char) :=
  match takeUntil (fun c => c == ':') cs with
  | (sch, ':' :: rest) => if schemeOk sch then some (sch, rest) else none
  | _ => none

/-- Splits `"//" authority rest`; fails unless the double separator and
a nonempty authority are present. -/
def splitAuthority : List Char → Option (List Char × List Char)
  | '/' :: '/' :: rest =>
    match takeUntil isAuthorityEnd rest with
    | ([], _) => none
    | (auth, r) => some (auth, r)
  | _ => none

/-- The path component: everything from a leading `/` up to `?`/`#`;
empty when the remainder does not start with a separator. -/
def splitPath (cs : List Char) : List Char × List Char :=
  match cs with
  | '/' :: _ => takeUntil isPathEnd cs
  | _ => ([], cs)

/-- The optional query and fragment after the path. -/
def splitQuery (cs : List Char) : Option (List Char) × Option (List Char) :=
  match cs with
  | '?' :: rest =>
    let qr := takeUntil (fun c => c == '#') rest
    (some qr.1,
      match qr.2 with
      | '#' :: f => some f
      | _ => none)
  | '#' :: f => (none, some f)
  | _ => (none, none)

/-- Modelled from the spec: `url::Url::parse`, the absolute-URI parser
of the external `url` crate used at `bundler.rs:62`. Its source is not
part of this repository; the model follows the spec's description —
the string must have scheme + authority + path with optional
query/fragment, anything else is a parse failure — and keeps the path
component verbatim, including repeated separators. -/
def Url.parse (s : String) : Option Url :=
  match splitScheme s.data with
  | none => none
  | some (sch, rest1) =>
    match splitAuthority rest1 with
    | none => none
    | some (auth, rest2) =>
      let pr := splitPath rest2
      let qf := splitQuery pr.2
      some {
        scheme := String.mk sch
        host := String.mk auth
        path := String.mk pr.1
        query := qf.1.map String.mk
        fragment := qf.2.map String.mk }

/-- Embedding of `str::strip_prefix('/')` followed by `unwrap_or`:
removes exactly one leading separator when present, otherwise returns
the string unchanged (`bundler.rs:70`). -/
def stripLeadingSlash (p : String) : String :=
  match p.data with
  | c :: rest => if c = '/' then String.mk rest else p
  | [] => p

/-- Whether a string starts with the path separator. -/
def headIsSlash (s : String) : Bool :=
  match s.data with
  | c :: _ => c == '/'
  | [] => false

/-- Whether a string starts with two path separators. -/
def headIsDoubleSlash (s : String) : Bool :=
  match s.data with
  | c :: c2 :: _ => c == '/' && c2 == '/'
  | _ => false

/-! ## `SchemaId` (bundler.rs:6-77) -/

/-- Embedding of `struct SchemaId { full_id: Url, relative_id: String }`. -/
structure SchemaId where
  full_id : Url
  relative_id : String
deriving DecidableEq

/-- Embedding of `SchemaId::from_json_value` (`bundler.rs:45-76`):
read the `$id` field, require it to be a string, parse it as a URL, and
derive the relative identifier by stripping one leading separator from
the URL's path. Every failing branch logs and returns `None`. -/
def SchemaId.from_json_value (val : JsonValue) : Option SchemaId :=
  match val.get "$id" with
  | none => none
  | some id_val =>
    match id_val.as_str with
    | none => none
    | some id_val_str =>
      match Url.parse id_val_str with
      | none => none
      | some id_url =>
        some {
          full_id := id_url
          relative_id := stripLeadingSlash id_url.path }

/-- The diagnostic outcome of `SchemaId::from_json_value`, mirroring
which logging branch the source takes: `noId` for the `debug!` branch
at `bundler.rs:49`, `malformedType` for the `error!` branch at line 57,
`malformedUri` for the `error!` branch at line 64, `ok` for success. -/
inductive ExtractOutcome where
  | noId
  | malformedType
  | malformedUri
  | ok (id : SchemaId)
deriving DecidableEq

/-- The control flow of `SchemaId::from_json_value` again, retaining
which branch produced the `None`: the diagnostics are distinguishable
even though the caller only sees `Option`. -/
def extractOutcome (val : JsonValue) : ExtractOutcome :=
  match val.get "$id" with
  | none => .noId
  | some id_val =>
    match id_val.as_str with
    | none => .malformedType
    | some id_val_str =>
      match Url.parse id_val_str with
      | none => .malformedUri
      | some id_url =>
        .ok {
          full_id := id_url
          relative_id := stripLeadingSlash id_url.path }

/-! ## `SchemaMap` (bundler.rs:79-173) -/

/-- Embedding of `struct SchemaMapItem { id: SchemaId, node: JsonValue }`. -/
structure SchemaMapItem where
  id : SchemaId
  node : JsonValue

/-- Registry entries: the `HashMap<String, SchemaMapItem>` is modelled
as an association list whose insert replaces any entry at the key. -/
abbrev Registry := List (String × SchemaMapItem)

/-- All entries whose key differs from `k`; used by `regInsert` so that
insertion replaces, as `HashMap::insert` does. -/
def eraseKey (k : String) : Registry → Registry
  | [] => []
  | (k', v) :: rest => if k' = k then eraseKey k rest else (k', v) :: eraseKey k rest

/-- Model of `HashMap::insert`: exactly one entry at `k` afterwards,
all other keys untouched. -/
def regInsert (k : String) (v : SchemaMapItem) (l : Registry) : Registry :=
  (k, v) :: eraseKey k l

/-- Model of `HashMap::get`. -/
def regLookup (k : String) : Registry → Option SchemaMapItem
  | [] => none
  | (k', v) :: rest => if k' = k then some v else regLookup k rest

/-- The number of entries stored at key `k`. -/
def countKey (k : String) : Registry → Nat
  | [] => 0
  | (k', _) :: rest => (if k' = k then 1 else 0) + countKey k rest

/-- Embedding of `struct SchemaMap { registry: HashMap<String, SchemaMapItem> }`. -/
structure SchemaMap where
  registry : Registry

/-- Embedding of `SchemaMap::new`. -/
def SchemaMap.new : SchemaMap := ⟨[]⟩

/-- Embedding of `SchemaMap::register_schema` (`bundler.rs:117-133`):
extract the identity; on success insert the item keyed by the relative
identifier; on failure log and leave the registry untouched. The Rust
function returns `()` unconditionally; here the updated map is returned
explicitly, and totality of this function is the embedding of "no
error is propagated to the caller". -/
def SchemaMap.register_schema (m : SchemaMap) (schema : JsonValue) : SchemaMap :=
  match SchemaId.from_json_value schema with
  | some the_id => ⟨regInsert the_id.relative_id ⟨the_id, schema⟩ m.registry⟩
  | none => m

/-- Embedding of `SchemaMap::get` (`bundler.rs:166-172`). -/
def SchemaMap.get (m : SchemaMap) (which : String) : Option JsonValue :=
  match regLookup which m.registry with
  | some item => some item.node
  | none => none

/-- Embedding of `HashMap::len` on the registry, the spec's `size()`
(the doctest at `bundler.rs:115` reads `registry.registry.len()`). -/
def SchemaMap.size (m : SchemaMap) : Nat := m.registry.length

/-- The registry state after registering a sequence of documents into a
fresh registry, in order. -/
def registerAll (docs : List JsonValue) : SchemaMap :=
  docs.foldl SchemaMap.register_schema SchemaMap.new

/-! ## General lemmas -/

theorem JsonValue.as_str_eq_some {v : JsonValue} {s : String}
    (h : v.as_str = some s) : v = .str s := by
  cases v <;> simp [JsonValue.as_str] at h
  exact h ▸ rfl

/-- Anatomy of a successful extraction: the `$id` field is a string,
it parses as a URL, and the relative identifier is the URL's path with
one leading separator stripped. -/
theorem from_json_value_anatomy {val : JsonValue} {sid : SchemaId}
    (h : SchemaId.from_json_value val = some sid) :
    ∃ s : String, val.get "$id" = some (.str s) ∧
      Url.parse s = some sid.full_id ∧
      sid.relative_id = stripLeadingSlash sid.full_id.path := by
  unfold SchemaId.from_json_value at h
  split at h
  · exact Option.noConfusion h
  next id_val hg =>
    split at h
    · exact Option.noConfusion h
    next s hs =>
      split at h
      · exact Option.noConfusion h
      next u hu =>
        refine ⟨s, ?_, ?_, ?_⟩
        · rw [hg, JsonValue.as_str_eq_some hs]
        · cases h; exact hu
        · cases h; rfl

theorem extractOutcome_ok_iff {val : JsonValue} {sid : SchemaId} :
    extractOutcome val = .ok sid ↔ SchemaId.from_json_value val = some sid := by
  unfold extractOutcome SchemaId.from_json_value
  cases hg : val.get "$id" with
  | none => simp
  | some id_val =>
    cases hs : id_val.as_str with
    | none => simp [hs]
    | some s =>
      cases hu : Url.parse s with
      | none => simp [hs, hu]
      | some u => simp [hs, hu]

/-! Registry lemmas -/

theorem regLookup_eraseKey_self (k : String) (l : Registry) :
    regLookup k (eraseKey k l) = none := by
  induction l with
  | nil => rfl
  | cons p rest ih =>
    obtain ⟨k', v⟩ := p
    by_cases hk : k' = k <;> simp [eraseKey, hk, regLookup, ih]

theorem regLookup_eraseKey_ne {k k' : String} (l : Registry) (h : k' ≠ k) :
    regLookup k' (eraseKey k l) = regLookup k' l := by
  induction l with
  | nil => rfl
  | cons p rest ih =>
    obtain ⟨k'', v⟩ := p
    by_cases hk : k'' = k
    · subst hk
      have hne : ¬ (k'' = k') := fun hc => h (hc ▸ rfl)
      simp [eraseKey, regLookup, hne, ih]
    · simp [eraseKey, hk, regLookup, ih]

theorem eraseKey_idem (k : String) (l : Registry) :
    eraseKey k (eraseKey k l) = eraseKey k l := by
  induction l with
  | nil => rfl
  | cons p rest ih =>
    obtain ⟨k', v⟩ := p
    by_cases hk : k' = k <;> simp [eraseKey, hk, ih]

theorem countKey_eraseKey_self (k : String) (l : Registry) :
    countKey k (eraseKey k l) = 0 := by
  induction l with
  | nil => rfl
  | cons p rest ih =>
    obtain ⟨k', v⟩ := p
    by_cases hk : k' = k <;> simp [eraseKey, hk, countKey, ih]

theorem countKey_regInsert_self (k : String) (v : SchemaMapItem) (l : Registry) :
    countKey k (regInsert k v l) = 1 := by
  simp [regInsert, countKey, countKey_eraseKey_self]

theorem mem_of_mem_eraseKey {e : String × SchemaMapItem} {k : String} {l : Registry}
    (h : e ∈ eraseKey k l) : e ∈ l := by
  induction l with
  | nil => exact absurd h (by simp [eraseKey])
  | cons p rest ih =>
    obtain ⟨k', v⟩ := p
    by_cases hk : k' = k
    · simp only [eraseKey, if_pos hk] at h
      exact List.mem_cons_of_mem _ (ih h)
    · simp only [eraseKey, if_neg hk] at h
      rcases List.mem_cons.mp h with h1 | h2
      · exact h1 ▸ List.mem_cons_self _ _
      · exact List.mem_cons_of_mem _ (ih h2)

/-! Register lemmas -/

theorem register_schema_of_none {m : SchemaMap} {d : JsonValue}
    (h : SchemaId.from_json_value d = none) : m.register_schema d = m := by
  simp [SchemaMap.register_schema, h]

theorem register_schema_of_some {m : SchemaMap} {d : JsonValue} {sid : SchemaId}
    (h : SchemaId.from_json_value d = some sid) :
    m.register_schema d = ⟨regInsert sid.relative_id ⟨sid, d⟩ m.registry⟩ := by
  simp [SchemaMap.register_schema, h]

theorem get_register_self {m : SchemaMap} {d : JsonValue} {sid : SchemaId}
    (h : SchemaId.from_json_value d = some sid) :
    (m.register_schema d).get sid.relative_id = some d := by
  rw [register_schema_of_some h]
  simp [SchemaMap.get, regInsert, regLookup]

theorem get_register_preserved {m : SchemaMap} {d : JsonValue} {key : String}
    (h : ∀ sid, SchemaId.from_json_value d = some sid → sid.relative_id ≠ key) :
    (m.register_schema d).get key = m.get key := by
  cases hd : SchemaId.from_json_value d with
  | none => rw [register_schema_of_none hd]
  | some sid =>
    rw [register_schema_of_some hd]
    have hne : sid.relative_id ≠ key := h sid hd
    simp only [SchemaMap.get, regInsert, regLookup, if_neg hne]
    rw [regLookup_eraseKey_ne _ (fun hc => hne hc.symm)]

/-! Parser guarantees: a successful parse has a nonempty scheme and a
nonempty authority. -/

theorem schemeOk_ne_nil {sch : List Char} (h : schemeOk sch = true) : sch ≠ [] := by
  intro hc
  subst hc
  simp [schemeOk] at h

theorem splitScheme_ne_nil {cs sch rest : List Char}
    (h : splitScheme cs = some (sch, rest)) : sch ≠ [] := by
  unfold splitScheme at h
  split at h
  · split at h
    next hok =>
      injection h with h'
      cases h'
      exact schemeOk_ne_nil hok
    · exact Option.noConfusion h
  · exact Option.noConfusion h

theorem splitAuthority_ne_nil {cs auth r : List Char}
    (h : splitAuthority cs = some (auth, r)) : auth ≠ [] := by
  unfold splitAuthority at h
  split at h
  · split at h
    · exact Option.noConfusion h
    · injection h with h'
      cases h'
      intro hc
      subst hc
      simp_all
  · exact Option.noConfusion h

theorem Url.parse_scheme_host_ne_empty {s : String} {u : Url}
    (h : Url.parse s = some u) : u.scheme ≠ "" ∧ u.host ≠ "" := by
  unfold Url.parse at h
  split at h
  · exact Option.noConfusion h
  next sch rest1 hsch =>
    split at h
    · exact Option.noConfusion h
    next auth rest2 hauth =>
      injection h with h'
      subst h'
      refine ⟨fun hc => ?_, fun hc => ?_⟩
      · exact splitScheme_ne_nil hsch (by simpa using congrArg String.data hc)
      · exact splitAuthority_ne_nil hauth (by simpa using congrArg String.data hc)

/-! Sequences of registrations -/

theorem get_foldl_of_no_collision {key : String} :
    ∀ (docs : List JsonValue) (m : SchemaMap),
      (∀ d ∈ docs, ∀ sid, SchemaId.from_json_value d = some sid → sid.relative_id ≠ key) →
      (docs.foldl SchemaMap.register_schema m).get key = m.get key := by
  intro docs
  induction docs with
  | nil => intro m _; rfl
  | cons d rest ih =>
    intro m h
    rw [List.foldl_cons,
      ih _ (fun d' hd' => h d' (List.mem_cons_of_mem _ hd')),
      get_register_preserved (h d (List.mem_cons_self _ _))]

/-- The invariant of claim C10: each entry's key is its identity's
relative identifier, and the identity is what extraction recomputes
from the stored document. -/
def RegistryInv (m : SchemaMap) : Prop :=
  ∀ e ∈ m.registry,
    e.1 = e.2.id.relative_id ∧ SchemaId.from_json_value e.2.node = some e.2.id

theorem registryInv_new : RegistryInv SchemaMap.new := by
  intro e he
  cases he

theorem registryInv_register {m : SchemaMap} {d : JsonValue}
    (h : RegistryInv m) : RegistryInv (m.register_schema d) := by
  cases hd : SchemaId.from_json_value d with
  | none => rw [register_schema_of_none hd]; exact h
  | some sid =>
    rw [register_schema_of_some hd]
    intro e he
    rcases List.mem_cons.mp he with he1 | he2
    · subst he1
      exact ⟨rfl, hd⟩
    · exact h e (mem_of_mem_eraseKey he2)

theorem registryInv_foldl :
    ∀ (docs : List JsonValue) (m : SchemaMap),
      RegistryInv m → RegistryInv (docs.foldl SchemaMap.register_schema m) := by
  intro docs
  induction docs with
  | nil => intro m h; exact h
  | cons d rest ih => intro m h; exact ih _ (registryInv_register h)

/-! ## Concrete documents used by the spec's examples -/

def exampleSchema : JsonValue :=
  .obj [("$id", .str "https://foo.com/somelocation/schema.json"), ("description", .str "x")]

def exampleSid : SchemaId :=
  ⟨⟨"https", "foo.com", "/somelocation/schema.json", none, none⟩, "somelocation/schema.json"⟩

def docA : JsonValue := .obj [("$id", .str "https://foo.com/x/y.json"), ("from", .str "A")]

def docB : JsonValue := .obj [("$id", .str "https://bar.org/x/y.json"), ("from", .str "B")]

def sidA : SchemaId := ⟨⟨"https", "foo.com", "/x/y.json", none, none⟩, "x/y.json"⟩

def sidB : SchemaId := ⟨⟨"https", "bar.org", "/x/y.json", none, none⟩, "x/y.json"⟩

def noIdDoc : JsonValue := .obj [("description", .str "no id here")]

def numIdDoc : JsonValue := .obj [("$id", .num 42)]

def badUrlDoc : JsonValue := .obj [("$id", .str "not a url")]

def doubleSlashDoc : JsonValue := .obj [("$id", .str "https://foo.com//a/b")]

def doubleSlashSid : SchemaId := ⟨⟨"https", "foo.com", "//a/b", none, none⟩, "/a/b"⟩

def rootOnlyDoc : JsonValue := .obj [("$id", .str "https://foo.com/")]

def rootOnlySid : SchemaId := ⟨⟨"https", "foo.com", "/", none, none⟩, ""⟩

def exampleItem : SchemaMapItem := ⟨exampleSid, exampleSchema⟩

/-- Key fact about one-separator stripping: the result starts with a
separator only when the input started with two, and the result is empty
only when the input was empty or the single separator. -/
theorem stripLeadingSlash_shape (p : String) :
    (headIsSlash (stripLeadingSlash p) = true → headIsDoubleSlash p = true) ∧
    (stripLeadingSlash p = "" → p = "" ∨ p = "/") := by
  obtain ⟨cs⟩ := p
  cases cs with
  | nil => exact ⟨fun h => by simp [headIsSlash, stripLeadingSlash] at h, fun _ => Or.inl rfl⟩
  | cons c rest =>
    by_cases hc : c = '/'
    · subst hc
      cases rest with
      | nil =>
        refine ⟨fun h => ?_, fun _ => Or.inr rfl⟩
        simp [stripLeadingSlash, headIsSlash] at h
      | cons c2 rest2 =>
        refine ⟨fun h => ?_, fun h => ?_⟩
        · have hc2 : c2 = '/' := by
            simpa [stripLeadingSlash, headIsSlash] using h
          simp [headIsDoubleSlash, hc2]
        · exfalso
          simp only [stripLeadingSlash, if_pos rfl] at h
          have := congrArg String.data h
          simp at this
    · refine ⟨fun h => ?_, fun h => ?_⟩
      · exfalso
        simp [stripLeadingSlash, hc, headIsSlash] at h
      · exfalso
        simp only [stripLeadingSlash, if_neg hc] at h
        have := congrArg String.data h
        simp at this

/-! ## The claims -/

/-- C1: for every document whose `$id` parses as a URL, the relative
identifier is a pure function of the canonical URL, obtained by taking
the URL's path component and stripping exactly one leading separator
when present; the canonical path `/a/b/c.json` yields `a/b/c.json`,
and `//a/b` yields `/a/b`, not `a/b`. -/
theorem C1_relative_id_from_canonical_path :
    (∀ (val : JsonValue) (sid : SchemaId),
        SchemaId.from_json_value val = some sid →
        sid.relative_id = stripLeadingSlash sid.full_id.path)
    ∧ (∀ (v1 v2 : JsonValue) (s1 s2 : SchemaId),
        SchemaId.from_json_value v1 = some s1 →
        SchemaId.from_json_value v2 = some s2 →
        s1.full_id = s2.full_id → s1.relative_id = s2.relative_id)
    ∧ stripLeadingSlash "/a/b/c.json" = "a/b/c.json"
    ∧ stripLeadingSlash "//a/b" = "/a/b" := by
  refine ⟨?_, ?_, by decide, by decide⟩
  · intro val sid h
    obtain ⟨s, _, _, hrel⟩ := from_json_value_anatomy h
    exact hrel
  · intro v1 v2 s1 s2 h1 h2 hfull
    obtain ⟨_, _, _, hr1⟩ := from_json_value_anatomy h1
    obtain ⟨_, _, _, hr2⟩ := from_json_value_anatomy h2
    rw [hr1, hr2, hfull]

/-- Witness for C1 at the spec's example document. -/
theorem C1_witness :
    SchemaId.from_json_value exampleSchema = some exampleSid ∧
    exampleSid.relative_id = stripLeadingSlash exampleSid.full_id.path :=
  ⟨by decide, C1_relative_id_from_canonical_path.1 exampleSchema exampleSid (by decide)⟩

/-- C2: registering two documents whose canonical identifiers map to
the same relative identifier leaves exactly one entry at that key,
lookup returns the second document, and no duplicate-detection error
exists — `register_schema` is total and replaces silently. -/
theorem C2_collision_last_write_wins
    (m : SchemaMap) (A B : JsonValue) (sa sb : SchemaId)
    (hA : SchemaId.from_json_value A = some sa)
    (hB : SchemaId.from_json_value B = some sb)
    (hcol : sa.relative_id = sb.relative_id) :
    ((m.register_schema A).register_schema B).get sb.relative_id = some B ∧
    countKey sb.relative_id ((m.register_schema A).register_schema B).registry = 1 := by
  refine ⟨get_register_self hB, ?_⟩
  rw [register_schema_of_some hB]
  exact countKey_regInsert_self _ _ _

/-- Witness for C2: `docA` and `docB` have different canonical URLs
but both map to relative `x/y.json`. -/
theorem C2_witness :
    ((SchemaMap.new.register_schema docA).register_schema docB).get "x/y.json" = some docB ∧
    countKey "x/y.json" ((SchemaMap.new.register_schema docA).register_schema docB).registry = 1 :=
  C2_collision_last_write_wins SchemaMap.new docA docB sidA sidB (by decide) (by decide) (by decide)

/-- C3: a successfully registered document is retrievable, exactly as
given, by its relative identifier; registration of non-colliding
documents preserves that; a relative identifier never registered looks
up to nothing; and the spec's end-to-end example behaves as stated. -/
theorem C3_registered_retrievable_unmodified :
    (∀ (m : SchemaMap) (doc : JsonValue) (sid : SchemaId),
        SchemaId.from_json_value doc = some sid →
        (m.register_schema doc).get sid.relative_id = some doc)
    ∧ (∀ (m : SchemaMap) (key : String) (doc d2 : JsonValue),
        m.get key = some doc →
        (∀ sid2, SchemaId.from_json_value d2 = some sid2 → sid2.relative_id ≠ key) →
        (m.register_schema d2).get key = some doc)
    ∧ (∀ (docs : List JsonValue) (key : String),
        (∀ d ∈ docs, ∀ sid, SchemaId.from_json_value d = some sid → sid.relative_id ≠ key) →
        (registerAll docs).get key = none)
    ∧ (SchemaMap.new.register_schema exampleSchema).get "somelocation/schema.json"
        = some exampleSchema
    ∧ (SchemaMap.new.register_schema exampleSchema).get "somelocation/missing.json" = none := by
  refine ⟨?_, ?_, ?_, rfl, rfl⟩
  · intro m doc sid h
    exact get_register_self h
  · intro m key doc d2 hget hno
    rw [get_register_preserved hno]
    exact hget
  · intro docs key hno
    unfold registerAll
    rw [get_foldl_of_no_collision docs _ hno]
    rfl

/-- Witness for C3 at the spec's example document. -/
theorem C3_witness :
    (SchemaMap.new.register_schema exampleSchema).get exampleSid.relative_id
      = some exampleSchema :=
  C3_registered_retrievable_unmodified.1 SchemaMap.new exampleSchema exampleSid (by decide)

/-- C4: a document that is not an object, or has no top-level `$id`,
yields no identity, and registering it leaves the size unchanged
(`register_schema` is total, so no error is raised). -/
theorem C4_absent_id_is_noop (val : JsonValue)
    (h : val.isObject = false ∨ val.get "$id" = none) :
    SchemaId.from_json_value val = none ∧
    ∀ m : SchemaMap, (m.register_schema val).size = m.size := by
  have hget : val.get "$id" = none := by
    rcases h with h | h
    · cases val <;> simp_all [JsonValue.isObject, JsonValue.get]
    · exact h
  have hnone : SchemaId.from_json_value val = none := by
    unfold SchemaId.from_json_value
    simp only [hget]
  exact ⟨hnone, fun m => by rw [register_schema_of_none hnone]⟩

/-- Witness for C4 at the spec's example `{"description": "no id here"}`. -/
theorem C4_witness :
    SchemaId.from_json_value noIdDoc = none ∧
    (SchemaMap.new.register_schema noIdDoc).size = SchemaMap.new.size :=
  ⟨(C4_absent_id_is_noop noIdDoc (Or.inr rfl)).1,
   (C4_absent_id_is_noop noIdDoc (Or.inr rfl)).2 SchemaMap.new⟩

/-- C5: a `$id` field that is present but not a string is treated as no
identity — the outcome is the `malformedType` diagnostic, which is
distinguishable from `noId` — and registering leaves the size
unchanged. -/
theorem C5_nonstring_id_is_distinguishable_noop
    (val idv : JsonValue)
    (hget : val.get "$id" = some idv)
    (hstr : idv.as_str = none) :
    extractOutcome val = .malformedType ∧
    ExtractOutcome.malformedType ≠ ExtractOutcome.noId ∧
    SchemaId.from_json_value val = none ∧
    ∀ m : SchemaMap, (m.register_schema val).size = m.size := by
  have h2 : SchemaId.from_json_value val = none := by
    unfold SchemaId.from_json_value
    simp only [hget, hstr]
  refine ⟨?_, by decide, h2, fun m => by rw [register_schema_of_none h2]⟩
  unfold extractOutcome
  simp only [hget, hstr]

/-- Witness for C5 at the spec's example `{"$id": 42}`. -/
theorem C5_witness :
    extractOutcome numIdDoc = .malformedType ∧
    SchemaId.from_json_value numIdDoc = none ∧
    (SchemaMap.new.register_schema numIdDoc).size = SchemaMap.new.size :=
  ⟨(C5_nonstring_id_is_distinguishable_noop numIdDoc (.num 42) rfl rfl).1,
   (C5_nonstring_id_is_distinguishable_noop numIdDoc (.num 42) rfl rfl).2.2.1,
   (C5_nonstring_id_is_distinguishable_noop numIdDoc (.num 42) rfl rfl).2.2.2 SchemaMap.new⟩

/-- C6: extraction yields an identity only when the `$id` string parses
as an absolute URL (nonempty scheme and authority); `"not a url"` does
not parse, and registering a document whose `$id` string fails to parse
leaves the size unchanged. -/
theorem C6_identity_requires_parseable_url :
    (∀ (val : JsonValue) (sid : SchemaId),
        SchemaId.from_json_value val = some sid →
        ∃ s : String, val.get "$id" = some (.str s) ∧ Url.parse s = some sid.full_id ∧
          sid.full_id.scheme ≠ "" ∧ sid.full_id.host ≠ "")
    ∧ Url.parse "not a url" = none
    ∧ (∀ (val : JsonValue) (s : String),
        val.get "$id" = some (.str s) → Url.parse s = none →
        SchemaId.from_json_value val = none ∧
        ∀ m : SchemaMap, (m.register_schema val).size = m.size) := by
  refine ⟨?_, by decide, ?_⟩
  · intro val sid h
    obtain ⟨s, hget, hparse, _⟩ := from_json_value_anatomy h
    obtain ⟨h1, h2⟩ := Url.parse_scheme_host_ne_empty hparse
    exact ⟨s, hget, hparse, h1, h2⟩
  · intro val s hget hparse
    have hnone : SchemaId.from_json_value val = none := by
      unfold SchemaId.from_json_value
      simp only [hget, JsonValue.as_str, hparse]
    exact ⟨hnone, fun m => by rw [register_schema_of_none hnone]⟩

/-- Witness for C6 at the spec's example `{"$id": "not a url"}`. -/
theorem C6_witness :
    Url.parse "not a url" = none ∧
    SchemaId.from_json_value badUrlDoc = none ∧
    (SchemaMap.new.register_schema badUrlDoc).size = SchemaMap.new.size :=
  ⟨C6_identity_requires_parseable_url.2.1,
   (C6_identity_requires_parseable_url.2.2 badUrlDoc "not a url" rfl (by decide)).1,
   (C6_identity_requires_parseable_url.2.2 badUrlDoc "not a url" rfl (by decide)).2
     SchemaMap.new⟩

/-- C7: registering the same document twice leaves the size the same as
registering it once, and lookup of its relative identifier returns the
document after both the first and the second registration. -/
theorem C7_reregistration_idempotent
    (m : SchemaMap) (doc : JsonValue) (sid : SchemaId)
    (h : SchemaId.from_json_value doc = some sid) :
    ((m.register_schema doc).register_schema doc).size = (m.register_schema doc).size ∧
    (m.register_schema doc).get sid.relative_id = some doc ∧
    ((m.register_schema doc).register_schema doc).get sid.relative_id = some doc := by
  have hr : (m.register_schema doc).register_schema doc = m.register_schema doc := by
    rw [register_schema_of_some h, register_schema_of_some h]
    simp [regInsert, eraseKey, eraseKey_idem]
  exact ⟨by rw [hr], get_register_self h, by rw [hr]; exact get_register_self h⟩

/-- Witness for C7 at the spec's example document. -/
theorem C7_witness :
    ((SchemaMap.new.register_schema exampleSchema).register_schema exampleSchema).size
      = (SchemaMap.new.register_schema exampleSchema).size ∧
    (SchemaMap.new.register_schema exampleSchema).get exampleSid.relative_id
      = some exampleSchema ∧
    ((SchemaMap.new.register_schema exampleSchema).register_schema exampleSchema).get
      exampleSid.relative_id = some exampleSchema :=
  C7_reregistration_idempotent SchemaMap.new exampleSchema exampleSid (by decide)

/-- C8 counterexample: the claim "the relative identifier is never an
absolute path and never empty unless the canonical path is empty" fails
on the code. The document with `$id` `https://foo.com//a/b` extracts
successfully with relative identifier `/a/b`, which begins with the
path separator; the document with `$id` `https://foo.com/` extracts
with relative identifier `""` although its canonical path `/` is not
empty. -/
theorem C8_counterexample :
    (SchemaId.from_json_value doubleSlashDoc = some doubleSlashSid ∧
      headIsSlash doubleSlashSid.relative_id = true) ∧
    (SchemaId.from_json_value rootOnlyDoc = some rootOnlySid ∧
      rootOnlySid.relative_id = "" ∧ rootOnlySid.full_id.path ≠ "") :=
  ⟨⟨by decide, by decide⟩, by decide, by decide⟩

/-- C8 amended: the relative identifier begins with a separator only
when the canonical path begins with two separators, and is empty only
when the canonical path is empty or is exactly the single separator. -/
theorem C8_amended_relative_shape
    (val : JsonValue) (sid : SchemaId)
    (h : SchemaId.from_json_value val = some sid) :
    (headIsSlash sid.relative_id = true → headIsDoubleSlash sid.full_id.path = true) ∧
    (sid.relative_id = "" → sid.full_id.path = "" ∨ sid.full_id.path = "/") := by
  obtain ⟨s, _, _, hrel⟩ := from_json_value_anatomy h
  rw [hrel]
  exact stripLeadingSlash_shape _

/-- Witness for the amended C8 at the double-separator document. -/
theorem C8_witness :
    headIsDoubleSlash doubleSlashSid.full_id.path = true :=
  (C8_amended_relative_shape doubleSlashDoc doubleSlashSid (by decide)).1 (by decide)

/-- C9: `register_schema` is a total function — no error reaches the
caller; when extraction yields no identity the registry is left exactly
as it was (so the drop is observable only via `get`/`size`), and when
it yields an identity the document is stored and observable via
lookup. -/
theorem C9_register_never_fails (m : SchemaMap) (val : JsonValue) :
    (SchemaId.from_json_value val = none → m.register_schema val = m) ∧
    (∀ sid : SchemaId, SchemaId.from_json_value val = some sid →
      (m.register_schema val).get sid.relative_id = some val) :=
  ⟨fun h => register_schema_of_none h, fun _ h => get_register_self h⟩

/-- Witness for C9: a dropped document leaves the registry untouched; a
stored one is observable by lookup. -/
theorem C9_witness :
    SchemaMap.new.register_schema badUrlDoc = SchemaMap.new ∧
    (SchemaMap.new.register_schema exampleSchema).get exampleSid.relative_id
      = some exampleSchema :=
  ⟨(C9_register_never_fails SchemaMap.new badUrlDoc).1 (by decide),
   (C9_register_never_fails SchemaMap.new exampleSchema).2 exampleSid (by decide)⟩

/-- C10: in every registry state reachable from the empty registry by
a sequence of `register_schema` calls, each stored entry's key is the
relative identifier of its stored `SchemaId`, and that `SchemaId` is
exactly what extraction produces from the entry's stored document. -/
theorem C10_registry_entries_consistent
    (docs : List JsonValue) (e : String × SchemaMapItem)
    (he : e ∈ (registerAll docs).registry) :
    e.1 = e.2.id.relative_id ∧
    SchemaId.from_json_value e.2.node = some e.2.id :=
  registryInv_foldl docs SchemaMap.new registryInv_new e he

/-- Witness for C10 on the one-document run. -/
theorem C10_witness :
    ("somelocation/schema.json", exampleItem).1
        = ("somelocation/schema.json", exampleItem).2.id.relative_id ∧
    SchemaId.from_json_value ("somelocation/schema.json", exampleItem).2.node
        = some ("somelocation/schema.json", exampleItem).2.id :=
  C10_registry_entries_consistent [exampleSchema] ("somelocation/schema.json", exampleItem)
    (List.Mem.head _)
